import Mathlib

/-!
Verification of the customer-dashboard filtering, aggregation and
preference pipeline (`src/components/CustomerTable.tsx`,
`src/components/CustomerCharts.tsx`).

The TypeScript code is shallowly embedded: JavaScript timestamps are
modelled as `Int` milliseconds since the Unix epoch (an invalid date,
JavaScript `NaN`, is `Option.none`), the runtime time zone is taken to be
UTC and the runtime locale `en-US`, so `new Date(string)` parses the two
formats the application actually produces (ISO `YYYY-MM-DD` from date
inputs and `Mon D, YYYY` from `toLocaleDateString`) to the midnight of the
named day, and any other string to an invalid date.  `String.toLowerCase`
is modelled on the ASCII range, which covers every string constant and
comparison in the code.
-/

/-- JavaScript `a || b` for strings: the empty string is falsy
(`undefined` from a missing CSV column is modelled as `""`, which is
also falsy). -/
def jsOr (a b : String) : String := if a = "" then b else a

/-- ASCII model of `String.prototype.toLowerCase`. -/
def toLowerStr (s : String) : String := String.mk (s.toList.map Char.toLower)

/-- The test `strLeads pre l` is true when `pre` is an initial run of `l`. -/
def strLeads : List Char → List Char → Bool
  | [], _ => true
  | _ :: _, [] => false
  | a :: as, b :: bs => a == b && strLeads as bs

/-- The test `strHas sub l` is true when `sub` occurs contiguously inside `l`. -/
def strHas (sub : List Char) : List Char → Bool
  | [] => strLeads sub []
  | l@(_ :: t) => strLeads sub l || strHas sub t

/-- JavaScript `s.includes(sub)`. -/
def jsIncludes (s sub : String) : Bool := strHas sub.toList s.toList

/-- Milliseconds in a civil day. -/
def msPerDay : Int := 86400000

def isLeap (y : Nat) : Bool := y % 4 == 0 && (y % 100 != 0 || y % 400 == 0)

def daysInMonth (y m : Nat) : Nat :=
  if m == 2 then (if isLeap y then 29 else 28)
  else if m == 4 || m == 6 || m == 9 || m == 11 then 30
  else 31

/-- Days from the epoch 1970-01-01 of the civil date `y-m-d`
(proleptic Gregorian calendar, `m` is 1-based). -/
def daysFromCivil (y m d : Nat) : Int :=
  let y1 := if m ≤ 2 then y - 1 else y
  let era := y1 / 400
  let yoe := y1 % 400
  let mp := (m + 9) % 12
  let doy := (153 * mp + 2) / 5 + (d - 1)
  let doe := yoe * 365 + yoe / 4 + doy - yoe / 100
  (↑(era * 146097 + doe) : Int) - 719468

/-- The `(year, month, day)` triple of an epoch-day count (inverse of
`daysFromCivil`). -/
def civilFromDays (z : Int) : Int × Nat × Nat :=
  let z1 := z + 719468
  let era := Int.ediv z1 146097
  let doe := (Int.emod z1 146097).toNat
  let yoe := (doe - doe / 1460 + doe / 36524 - doe / 146096) / 365
  let doy := doe - (365 * yoe + yoe / 4 - yoe / 100)
  let mp := (5 * doy + 2) / 153
  let d := doy - (153 * mp + 2) / 5 + 1
  let m := if mp < 10 then mp + 3 else mp - 9
  (era * 400 + ↑yoe + (if m ≤ 2 then 1 else 0), m, d)

/-- Numeric value of a digit list (most significant first). -/
def digitsVal (l : List Char) : Nat :=
  l.foldl (fun n c => n * 10 + (c.toNat - 48)) 0

/-- The midnight timestamp of `y-m-d` when the triple is a real civil
date, otherwise an invalid date. -/
def mkDateMs (y m d : Nat) : Option Int :=
  if 1 ≤ m ∧ m ≤ 12 ∧ 1 ≤ d ∧ d ≤ daysInMonth y m then
    some (daysFromCivil y m d * msPerDay)
  else none

/-- Parse `YYYY-MM-DD` to the UTC midnight of that day, as
`new Date("YYYY-MM-DD")` does. -/
def parseISO (s : String) : Option Int :=
  match s.toList with
  | [y1, y2, y3, y4, h1, m1, m2, h2, d1, d2] =>
    if h1 = '-' ∧ h2 = '-' ∧ ([y1, y2, y3, y4, m1, m2, d1, d2].all Char.isDigit) then
      mkDateMs (digitsVal [y1, y2, y3, y4]) (digitsVal [m1, m2]) (digitsVal [d1, d2])
    else none
  | _ => none

def monthNames : List String :=
  ["Jan", "Feb", "Mar", "Apr", "May", "Jun",
   "Jul", "Aug", "Sep", "Oct", "Nov", "Dec"]

/-- The 1-based month number of a short English month name. -/
def monthIndexOf (l : List Char) : Option Nat :=
  (monthNames.findIdx? (fun n => n.toList == l)).map (· + 1)

/-- Longest digit run at the head of a character list, and the rest. -/
def takeDigits : List Char → List Char × List Char
  | [] => ([], [])
  | c :: r =>
    if c.isDigit then
      let p := takeDigits r
      (c :: p.1, p.2)
    else ([], c :: r)

/-- Parse `Mon D, YYYY` (the `en-US` `toLocaleDateString` output used for
`lastContacted`) to the midnight of that day. -/
def parseUS (s : String) : Option Int :=
  match s.toList with
  | m1 :: m2 :: m3 :: ' ' :: rest =>
    match monthIndexOf [m1, m2, m3] with
    | none => none
    | some m =>
      match (takeDigits rest).2 with
      | ',' :: ' ' :: [c1, c2, c3, c4] =>
        if [c1, c2, c3, c4].all Char.isDigit then
          mkDateMs (digitsVal [c1, c2, c3, c4]) m (digitsVal (takeDigits rest).1)
        else none
      | _ => none
  | _ => none

/-- JavaScript `new Date(s).getTime()`, with `none` for an invalid date. -/
def jsParseDate (s : String) : Option Int :=
  match parseISO s with
  | some t => some t
  | none => parseUS s

/-- JavaScript `d.setHours(23, 59, 59, 999)`: move a timestamp to the last
millisecond of its (UTC) day. -/
def jsEndOfDay (t : Int) : Int := t - Int.emod t msPerDay + (msPerDay - 1)

/-- JavaScript `a >= b` on possibly invalid dates: any comparison with
`NaN` is false. -/
def jsGe : Option Int → Option Int → Bool
  | some a, some b => b ≤ a
  | _, _ => false

/-- JavaScript `a <= b` on possibly invalid dates. -/
def jsLe : Option Int → Option Int → Bool
  | some a, some b => a ≤ b
  | _, _ => false

/-- The customer record of `CustomerTable.tsx`. -/
structure Customer where
  id : String
  name : String
  avatar : String
  email : String
  phone : String
  tags : List String
  lastContacted : String
  deriving Repr, DecidableEq

/-- The date-range filter state; `end_` stands for the source field
`end` (a Lean keyword).  Empty string means an unset bound. -/
structure DateRange where
  start : String
  end_ : String
  deriving Repr, DecidableEq

/-- The predicate of the date-range `filter` callback in `filteredData`:
`itemDate >= start && itemDate <= end` after the sentinel defaults
`new Date("1970-01-01")` / `new Date("2100-01-01")` and
`end.setHours(23, 59, 59, 999)`. -/
def dateRangePred (dr : DateRange) (lastContacted : String) : Bool :=
  let itemDate := jsParseDate lastContacted
  let start := if dr.start ≠ "" then jsParseDate dr.start else jsParseDate "1970-01-01"
  let end1 := if dr.end_ ≠ "" then jsParseDate dr.end_ else jsParseDate "2100-01-01"
  let end2 := end1.map jsEndOfDay
  jsGe itemDate start && jsLe itemDate end2

/-- The `filteredData` memo of `CustomerTable.tsx`: text search, then
tag filter, then date-range filter, each applied only when its input is
active, exactly as in the source. -/
def filteredData (data : List Customer) (searchQuery activeRoleFilter : String)
    (dateRange : DateRange) : List Customer :=
  let result := data
  let result := if searchQuery ≠ "" then
      result.filter (fun item =>
        jsIncludes (toLowerStr item.name) (toLowerStr searchQuery) ||
        jsIncludes (toLowerStr item.email) (toLowerStr searchQuery))
    else result
  let result := if activeRoleFilter ≠ "All" then
      result.filter (fun item => item.tags.contains activeRoleFilter)
    else result
  let result := if dateRange.start ≠ "" ∨ dateRange.end_ ≠ "" then
      result.filter (fun item => dateRangePred dateRange item.lastContacted)
    else result
  result

/-- A record passes the text search: empty query matches everything,
otherwise case-insensitive substring match against name or email. -/
def passesSearch (q : String) (item : Customer) : Bool :=
  if q = "" then true
  else
    jsIncludes (toLowerStr item.name) (toLowerStr q) ||
    jsIncludes (toLowerStr item.email) (toLowerStr q)

/-- A record passes the tag filter: `activeTag` is `"All"` or the tags
contain it exactly. -/
def passesTag (tag : String) (item : Customer) : Bool :=
  if tag = "All" then true else item.tags.contains tag

/-- A record passes the date-range step: vacuously when both bounds are
unset, otherwise by `dateRangePred`. -/
def passesDate (dr : DateRange) (item : Customer) : Bool :=
  if dr.start = "" ∧ dr.end_ = "" then true
  else dateRangePred dr item.lastContacted

theorem searchStage (q : String) (l : List Customer) :
    (if q ≠ "" then
        l.filter (fun item =>
          jsIncludes (toLowerStr item.name) (toLowerStr q) ||
          jsIncludes (toLowerStr item.email) (toLowerStr q))
      else l) = l.filter (fun item => passesSearch q item) := by
  by_cases hq : q = "" <;> simp [hq, passesSearch]

theorem tagStage (tag : String) (l : List Customer) :
    (if tag ≠ "All" then l.filter (fun item => item.tags.contains tag) else l)
      = l.filter (fun item => passesTag tag item) := by
  by_cases ht : tag = "All" <;> simp [ht, passesTag]

theorem dateStage (dr : DateRange) (l : List Customer) :
    (if dr.start ≠ "" ∨ dr.end_ ≠ "" then
        l.filter (fun item => dateRangePred dr item.lastContacted)
      else l) = l.filter (fun item => passesDate dr item) := by
  by_cases hd : dr.start = "" ∧ dr.end_ = ""
  · simp [hd, passesDate, hd.1, hd.2]
  · have hd2 : dr.start ≠ "" ∨ dr.end_ ≠ "" := by tauto
    simp [hd2, passesDate, hd]

/-- C1: the Query Engine output is exactly one pass of `List.filter`
with the conjunction of the three pass predicates, so it contains
exactly the records passing text search, tag filter and date-range
filter, in the Record Store relative order (no re-sorting), and is a
sublist of the store. -/
theorem C1_query_engine (data : List Customer) (q tag : String) (dr : DateRange) :
    filteredData data q tag dr
      = data.filter (fun item => passesSearch q item && passesTag tag item && passesDate dr item)
    ∧ List.Sublist (filteredData data q tag dr) data := by
  have main : filteredData data q tag dr
      = data.filter (fun item => passesSearch q item && passesTag tag item && passesDate dr item) := by
    simp only [filteredData]
    rw [searchStage, tagStage, dateStage, List.filter_filter, List.filter_filter]
    exact List.filter_congr (fun a _ => by
      cases passesSearch q a <;> cases passesTag tag a <;> cases passesDate dr a <;> rfl)
  refine ⟨main, ?_⟩
  rw [main]
  exact List.filter_sublist data

/-- The date-range step as the claim words it: an empty `start` bound
imposes no lower limit at all and an empty `end` no upper limit at all;
a non-empty bound must parse, and `end` is inclusive of its entire
calendar day. -/
def claimDatePass (dr : DateRange) (lc : String) : Bool :=
  match jsParseDate lc with
  | none => false
  | some t =>
    (if dr.start = "" then true
     else match jsParseDate dr.start with
       | some s => s ≤ t
       | none => false) &&
    (if dr.end_ = "" then true
     else match jsParseDate dr.end_ with
       | some e => t ≤ e + (msPerDay - 1)
       | none => false)

/-- A record date passes with explicit lower and upper bound strings:
all three must parse, and the window is `[s, e + lastMsOfDay]`. -/
def sentinelPass (lc sS sE : String) : Bool :=
  match jsParseDate lc, jsParseDate sS, jsParseDate sE with
  | some t, some s, some e => s ≤ t && t ≤ e + (msPerDay - 1)
  | _, _, _ => false

/-- The date-range step as the code actually behaves: an empty `start`
is replaced by the sentinel `new Date("1970-01-01")` (timestamp `0`)
and an empty `end` by `new Date("2100-01-01")`; the end bound is
inclusive of its entire calendar day. -/
def amendedDatePass (dr : DateRange) (lc : String) : Bool :=
  sentinelPass lc
    (if dr.start = "" then "1970-01-01" else dr.start)
    (if dr.end_ = "" then "2100-01-01" else dr.end_)

/-- Every string `jsParseDate` accepts denotes a midnight: the
timestamp is a multiple of `msPerDay`. -/
theorem mkDateMs_emod (y m d : Nat) (t : Int) (h : mkDateMs y m d = some t) :
    Int.emod t msPerDay = 0 := by
  unfold mkDateMs at h
  split at h
  · cases h
    exact Int.mul_emod_left _ _
  · cases h

theorem parseISO_emod (s : String) (t : Int) (h : parseISO s = some t) :
    Int.emod t msPerDay = 0 := by
  unfold parseISO at h
  repeat' split at h
  all_goals first
    | cases h
    | exact mkDateMs_emod _ _ _ _ h

theorem parseUS_emod (s : String) (t : Int) (h : parseUS s = some t) :
    Int.emod t msPerDay = 0 := by
  unfold parseUS at h
  repeat' split at h
  all_goals first
    | cases h
    | exact mkDateMs_emod _ _ _ _ h

theorem jsParseDate_emod (s : String) (t : Int) (h : jsParseDate s = some t) :
    Int.emod t msPerDay = 0 := by
  unfold jsParseDate at h
  split at h
  · cases h
    exact parseISO_emod s t (by assumption)
  · exact parseUS_emod s t h

theorem jsEndOfDay_of_midnight (t : Int) (h : Int.emod t msPerDay = 0) :
    jsEndOfDay t = t + (msPerDay - 1) := by
  unfold jsEndOfDay
  rw [h]
  ring

theorem dateCore (lc sS sE : String) :
    (jsGe (jsParseDate lc) (jsParseDate sS) &&
     jsLe (jsParseDate lc) ((jsParseDate sE).map jsEndOfDay))
      = sentinelPass lc sS sE := by
  unfold sentinelPass
  cases hI : jsParseDate lc <;> cases hS : jsParseDate sS <;> cases hE : jsParseDate sE <;>
    simp [jsGe, jsLe]
  rw [jsEndOfDay_of_midnight _ (jsParseDate_emod _ _ hE)]

/-- The active date-range predicate of the code coincides with the
sentinel-bound formulation. -/
theorem dateRangePred_eq_amended (dr : DateRange) (lc : String) :
    dateRangePred dr lc = amendedDatePass dr lc := by
  unfold dateRangePred amendedDatePass
  by_cases hs : dr.start = "" <;> by_cases he : dr.end_ = "" <;>
    simp only [hs, he, if_pos, if_neg, not_false_iff, ite_not, if_true, if_false,
      not_true_eq_false, ite_false, ite_true] <;>
    exact dateCore _ _ _

/-- C2 counterexample: with an empty `start` bound and end `2000-01-01`
the record dated `Dec 31, 1969` is excluded by the code (the empty
`start` becomes the sentinel `1970-01-01`, not unbounded past), while
the claim as stated would accept it. -/
theorem C2_counterexample :
    dateRangePred ⟨"", "2000-01-01"⟩ "Dec 31, 1969" = false
    ∧ claimDatePass ⟨"", "2000-01-01"⟩ "Dec 31, 1969" = true := by
  constructor <;> rfl

/-- C2 (amended): for every non-empty date filter, a record passes the
date-range step iff its `lastContacted` parses and the timestamp lies
in `[start, end]` where an empty `start` is replaced by `1970-01-01`,
an empty `end` by `2100-01-01`, and the `end` bound is inclusive of the
entire calendar day it names. -/
theorem C2_date_range_amended (dr : DateRange) (c : Customer)
    (h : dr.start ≠ "" ∨ dr.end_ ≠ "") :
    passesDate dr c = amendedDatePass dr c.lastContacted := by
  have hno : ¬(dr.start = "" ∧ dr.end_ = "") := by tauto
  unfold passesDate
  rw [if_neg hno]
  exact dateRangePred_eq_amended dr c.lastContacted

theorem C2_date_range_amended_witness :
    ((⟨"2024-01-01", ""⟩ : DateRange).start ≠ "" ∨ (⟨"2024-01-01", ""⟩ : DateRange).end_ ≠ "")
    ∧ passesDate ⟨"2024-01-01", ""⟩
        ⟨"c1", "Ada", "av", "ada@example.com", "555", ["Lead"], "Mar 5, 2024"⟩
      = amendedDatePass ⟨"2024-01-01", ""⟩ "Mar 5, 2024" :=
  ⟨Or.inl (by decide),
   C2_date_range_amended ⟨"2024-01-01", ""⟩
     ⟨"c1", "Ada", "av", "ada@example.com", "555", ["Lead"], "Mar 5, 2024"⟩
     (Or.inl (by decide))⟩

/-- The `stats` memo of `CustomerCharts.tsx`.  `now` is the timestamp
of `new Date()` at evaluation time; `thirtyDaysAgo` is obtained by
`setDate(getDate() - 30)`, which under a fixed-offset time zone is
exactly `now - 30 * msPerDay`.  The recent-contacts test is only
`date >= thirtyDaysAgo`. -/
structure Stats where
  total : Nat
  leads : Nat
  partners : Nat
  recentContacts : Nat
  deriving Repr, DecidableEq

def stats (data : List Customer) (now : Int) : Stats :=
  { total := data.length
    leads := (data.filter (fun c => c.tags.contains "Lead")).length
    partners := (data.filter (fun c => c.tags.contains "Partner")).length
    recentContacts :=
      (data.filter (fun c =>
        jsGe (jsParseDate c.lastContacted) (some (now - 30 * msPerDay)))).length }

/-- The recent-contacts count as the claim words it: records whose
parsed date lies between 30 days before `now` (inclusive) and `now`. -/
def claimRecentContacts (data : List Customer) (now : Int) : Nat :=
  (data.filter (fun c =>
    match jsParseDate c.lastContacted with
    | some t => decide (now - 30 * msPerDay ≤ t ∧ t ≤ now)
    | none => false)).length

/-- C3 counterexample: at evaluation time 2024-01-01 a record dated
`Jun 1, 2024` (five months in the future) is counted by the code,
while the claim bounds the window above by `now`. -/
theorem C3_counterexample :
    (stats [⟨"c1", "N", "a", "e", "p", ["Lead"], "Jun 1, 2024"⟩] 1704067200000).recentContacts = 1
    ∧ claimRecentContacts [⟨"c1", "N", "a", "e", "p", ["Lead"], "Jun 1, 2024"⟩] 1704067200000 = 0
    ∧ jsParseDate "Jun 1, 2024" = some 1717200000000 := by
  refine ⟨?_, ?_, ?_⟩ <;> rfl

/-- C3 (amended): `recentContacts` counts exactly the records whose
`lastContacted` parses to a timestamp at or after `now - 30` days; the
window has no upper bound, so future-dated records are counted too.  A
record exactly 30 days old is included, one 31 days old is not. -/
theorem C3_recent_contacts_amended (data : List Customer) (now : Int) :
    (stats data now).recentContacts
      = (data.filter (fun c =>
          match jsParseDate c.lastContacted with
          | some t => decide (now - 30 * msPerDay ≤ t)
          | none => false)).length := by
  unfold stats
  simp only
  congr 1
  apply List.filter_congr
  intro c _
  cases jsParseDate c.lastContacted <;> simp [jsGe]

/-- JavaScript `counts[tag] = (counts[tag] || 0) + 1` on a JavaScript object
modelled as an insertion-ordered association list. -/
def bump (counts : List (String × Nat)) (key : String) : List (String × Nat) :=
  match counts with
  | [] => [(key, 1)]
  | (k, v) :: rest => if k = key then (k, v + 1) :: rest else (k, v) :: bump rest key

/-- The tag-frequency object of the `tagData` memo, in property
insertion order. -/
def buildTagCounts (data : List Customer) : List (String × Nat) :=
  data.foldl (fun acc c => c.tags.foldl (fun a t => bump a t) acc) []

/-- Insert `x` in front of the first entry it is strictly below,
i.e. after every entry comparing equal: the stable insertion step. -/
def jsIns (lt : α → α → Bool) (x : α) : List α → List α
  | [] => [x]
  | y :: ys => if lt x y then x :: y :: ys else y :: jsIns lt x ys

/-- JavaScript `Array.prototype.sort` with a consistent comparator: a stable sort
by the strict order `lt` (`lt a b` means the comparator returned a
negative number on `(a, b)`). -/
def jsSortLt (lt : α → α → Bool) (l : List α) : List α :=
  l.foldl (fun acc x => jsIns lt x acc) []

/-- Whether `s` is a canonical array-index property name: digits without a
leading zero, value below `2^32 - 1`.  `Object.entries` lists such keys
first, in ascending numeric order, before string keys in insertion
order. -/
def isArrayIndex (s : String) : Bool :=
  match s.toList with
  | [] => false
  | c :: cs =>
    (c :: cs).all Char.isDigit && (cs.isEmpty || !(c == '0')) &&
    decide (digitsVal (c :: cs) < 4294967295)

/-- The `Object.entries` ordering on the modelled object: array-index keys
ascending numerically, then the remaining keys in insertion order. -/
def jsEntries (counts : List (String × Nat)) : List (String × Nat) :=
  jsSortLt (fun a b => decide (digitsVal a.1.toList < digitsVal b.1.toList))
      (counts.filter (fun p => isArrayIndex p.1))
    ++ counts.filter (fun p => !isArrayIndex p.1)

/-- The comparator `(a, b) => b.value - a.value` is negative exactly
when the count of `a` is larger: descending by count. -/
def tagLt (a b : String × Nat) : Bool := decide (b.2 < a.2)

/-- The `tagData` memo: `Object.entries(counts)` sorted descending by
count (stable) and truncated to the top 5. -/
def tagData (data : List Customer) : List (String × Nat) :=
  (jsSortLt tagLt (jsEntries (buildTagCounts data))).take 5

/-- The tag distribution as the claim words it: the counts in
first-encountered order, stably sorted descending, truncated to 5. -/
def claimTagData (data : List Customer) : List (String × Nat) :=
  (jsSortLt tagLt (buildTagCounts data)).take 5

theorem mem_bump (acc : List (String × Nat)) (t : String) (p : String × Nat)
    (h : p ∈ bump acc t) : p.1 = t ∨ p.1 ∈ acc.map Prod.fst := by
  induction acc with
  | nil =>
    simp only [bump, List.mem_singleton] at h
    exact Or.inl (by rw [h])
  | cons q rest ih =>
    obtain ⟨k, v⟩ := q
    simp only [bump] at h
    by_cases hkt : k = t
    · rw [if_pos hkt] at h
      rcases List.mem_cons.mp h with h1 | h1
      · left
        rw [h1]
        exact hkt
      · right
        simp only [List.map_cons]
        exact List.mem_cons_of_mem _ (List.mem_map_of_mem _ h1)
    · rw [if_neg hkt] at h
      rcases List.mem_cons.mp h with h1 | h1
      · right
        simp only [List.map_cons]
        rw [h1]
        exact List.mem_cons_self _ _
      · rcases ih h1 with h2 | h2
        · exact Or.inl h2
        · right
          simp only [List.map_cons]
          exact List.mem_cons_of_mem _ h2

theorem mem_foldl_bump (tags : List String) (acc : List (String × Nat)) (p : String × Nat)
    (h : p ∈ tags.foldl (fun a t => bump a t) acc) :
    p.1 ∈ tags ∨ p.1 ∈ acc.map Prod.fst := by
  induction tags generalizing acc with
  | nil => exact Or.inr (List.mem_map_of_mem _ h)
  | cons t rest ih =>
    simp only [List.foldl_cons] at h
    rcases ih (bump acc t) h with h1 | h1
    · exact Or.inl (List.mem_cons_of_mem _ h1)
    · simp only [List.mem_map] at h1
      obtain ⟨q, hq, hq1⟩ := h1
      rcases mem_bump acc t q hq with h2 | h2
      · left
        rw [← hq1, h2]
        exact List.mem_cons_self _ _
      · right
        rw [← hq1]
        exact h2

theorem mem_foldl_records (ds : List Customer) (acc : List (String × Nat)) (p : String × Nat)
    (h : p ∈ ds.foldl (fun acc c => c.tags.foldl (fun a t => bump a t) acc) acc) :
    (∃ c ∈ ds, p.1 ∈ c.tags) ∨ p.1 ∈ acc.map Prod.fst := by
  induction ds generalizing acc with
  | nil => exact Or.inr (List.mem_map_of_mem _ h)
  | cons c rest ih =>
    simp only [List.foldl_cons] at h
    rcases ih (c.tags.foldl (fun a t => bump a t) acc) h with h1 | h1
    · left
      obtain ⟨c2, hc2, ht⟩ := h1
      exact ⟨c2, List.mem_cons_of_mem _ hc2, ht⟩
    · simp only [List.mem_map] at h1
      obtain ⟨q, hq, hq1⟩ := h1
      rcases mem_foldl_bump _ _ _ hq with h2 | h2
      · left
        exact ⟨c, List.mem_cons_self _ _, hq1 ▸ h2⟩
      · right
        rw [← hq1]
        exact h2

theorem mem_buildTagCounts (data : List Customer) (p : String × Nat)
    (h : p ∈ buildTagCounts data) : ∃ c ∈ data, p.1 ∈ c.tags := by
  rcases mem_foldl_records data [] p h with h1 | h1
  · exact h1
  · simp at h1

theorem jsEntries_id (counts : List (String × Nat))
    (h : ∀ p ∈ counts, isArrayIndex p.1 = false) : jsEntries counts = counts := by
  unfold jsEntries
  have h1 : counts.filter (fun p => isArrayIndex p.1) = [] := by
    rw [List.filter_eq_nil_iff]
    intro p hp
    simp [h p hp]
  have h2 : counts.filter (fun p => !isArrayIndex p.1) = counts := by
    rw [List.filter_eq_self]
    intro p hp
    simp [h p hp]
  rw [h1, h2]
  rfl

/-- C4 counterexample: for records tagged `"2"` and `"1"` (tied counts)
the code yields the numeric keys in ascending `Object.entries` order,
not in first-encountered order as the claim states. -/
theorem C4_counterexample :
    tagData [⟨"a", "n", "a", "e", "p", ["2"], "x"⟩, ⟨"b", "n", "a", "e", "p", ["1"], "x"⟩]
        = [("1", 1), ("2", 1)]
    ∧ claimTagData [⟨"a", "n", "a", "e", "p", ["2"], "x"⟩, ⟨"b", "n", "a", "e", "p", ["1"], "x"⟩]
        = [("2", 1), ("1", 1)] := by
  refine ⟨?_, ?_⟩ <;> rfl

/-- C4 (amended): the tag distribution maps each distinct tag to the
number of records carrying it, sorted descending by count with ties in
the order `Object.entries` yields (canonical array-index tag names
numerically ascending first, then the other tags in first-encountered
order) and truncated to 5; when no tag name is a canonical array-index
string the tie order is exactly first-encountered, and the spec example
gives `A: 2, B: 1`. -/
theorem C4_tag_distribution_amended (data : List Customer)
    (h : ∀ c ∈ data, ∀ t ∈ c.tags, isArrayIndex t = false) :
    tagData data = claimTagData data
    ∧ tagData [⟨"a", "n", "a", "e", "p", ["A"], "x"⟩, ⟨"b", "n", "a", "e", "p", ["A", "B"], "x"⟩]
        = [("A", 2), ("B", 1)] := by
  refine ⟨?_, by rfl⟩
  unfold tagData claimTagData
  rw [jsEntries_id]
  intro p hp
  obtain ⟨c, hc, ht⟩ := mem_buildTagCounts data p hp
  exact h c hc p.1 ht

theorem C4_tag_distribution_amended_witness :
    (∀ c ∈ [Customer.mk "a" "n" "a" "e" "p" ["A"] "x",
            Customer.mk "b" "n" "a" "e" "p" ["A", "B"] "x"],
       ∀ t ∈ c.tags, isArrayIndex t = false)
    ∧ tagData [⟨"a", "n", "a", "e", "p", ["A"], "x"⟩, ⟨"b", "n", "a", "e", "p", ["A", "B"], "x"⟩]
        = claimTagData [⟨"a", "n", "a", "e", "p", ["A"], "x"⟩, ⟨"b", "n", "a", "e", "p", ["A", "B"], "x"⟩] :=
  ⟨by decide,
   (C4_tag_distribution_amended _ (by decide)).1⟩

/-- Two-digit zero-padded year as `year: "2-digit"` renders it. -/
def twoDigits (n : Nat) : String := if n < 10 then "0" ++ toString n else toString n

/-- The bucket label
`date.toLocaleString("default", { month: "short", year: "2-digit" })`:
for the `en-US` locale this is the pattern `MMM yy`, e.g. `Mar 24`
(there is no apostrophe before the year). -/
def labelOf (t : Int) : String :=
  let c := civilFromDays (Int.ediv t msPerDay)
  (monthNames.getD (c.2.1 - 1) "") ++ " " ++ twoDigits ((Int.emod c.1 100).toNat)

/-- The month-bucket object of the `activityData` memo: records whose
`lastContacted` does not parse are skipped (`isNaN(date.getTime())`). -/
def buildActivityCounts (data : List Customer) : List (String × Nat) :=
  data.foldl (fun acc c =>
    match jsParseDate c.lastContacted with
    | none => acc
    | some t => bump acc (labelOf t)) []

def apos : Char := Char.ofNat 39

/-- JavaScript `String.prototype.split` with a two-character separator. -/
def split2 (a b : Char) : List Char → List (List Char)
  | [] => [[]]
  | [c] => [[c]]
  | c :: d :: rest =>
    if c == a && d == b then [] :: split2 a b rest
    else
      match split2 a b (d :: rest) with
      | [] => [[c]]
      | g :: gs => (c :: g) :: gs

/-- JavaScript `parseInt`: value of the leading digit run, `NaN` when there is
none. -/
def jsParseIntPrefix (l : List Char) : Option Nat :=
  match takeDigits l with
  | ([], _) => none
  | (ds, _) => some (digitsVal ds)

/-- JavaScript `getMonth()`: the 0-based month of a timestamp. -/
def jsGetMonth (t : Int) : Nat := (civilFromDays (Int.ediv t msPerDay)).2.1 - 1

/-- The `sortValue` reconstruction of `activityData`: split the label on
a space followed by an apostrophe, rebuild the year as
`parseInt("20" + year)` and the month index via
`new Date(month + " 1, 2000").getMonth()`; `none` is JavaScript `NaN`
(in particular when the split found no separator and `year` is
`undefined`). -/
def sortValueOf (name : String) : Option Int :=
  match split2 ' ' apos name.toList with
  | m :: y :: _ =>
    match jsParseDate (String.mk m ++ " 1, 2000") with
    | none => none
    | some t =>
      match jsParseIntPrefix ('2' :: '0' :: y) with
      | none => none
      | some fy => some ((fy : Int) * 100 + jsGetMonth t)
  | _ => none

structure ActivityPoint where
  name : String
  value : Nat
  sortValue : Option Int
  deriving Repr, DecidableEq

/-- The comparator `(a, b) => a.sortValue - b.sortValue` is negative
exactly when `a.sortValue < b.sortValue`; any comparison on `NaN` is
not negative, so such pairs are never swapped. -/
def actLt (a b : ActivityPoint) : Bool :=
  match a.sortValue, b.sortValue with
  | some x, some y => decide (x < y)
  | _, _ => false

/-- The `activityData` memo: bucket counts with their labels and
reconstructed sort keys, passed through `Array.prototype.sort`. -/
def activityData (data : List Customer) : List ActivityPoint :=
  jsSortLt actLt
    ((jsEntries (buildActivityCounts data)).map (fun p => ⟨p.1, p.2, sortValueOf p.1⟩))

/-- The true chronological key `year * 100 + monthIndex` of a bucket
label (used to state what the claim expects). -/
def labelKey (name : String) : Int :=
  match name.toList with
  | m1 :: m2 :: m3 :: ' ' :: ys =>
    match monthIndexOf [m1, m2, m3] with
    | some m => ((2000 + digitsVal ys : Nat) : Int) * 100 + ((m : Int) - 1)
    | none => 0
  | _ => 0

/-- The activity tabulation as the claim words it: the buckets sorted
ascending by the key `year * 100 + monthIndex`. -/
def claimActivityData (data : List Customer) : List (String × Nat) :=
  jsSortLt (fun a b => decide (labelKey a.1 < labelKey b.1)) (buildActivityCounts data)

/-- C5: evaluation of the code at the failing input.  With records
dated `Feb 10, 2024` then `Jan 5, 2024` the label is `"Feb 24"` /
`"Jan 24"` (locale pattern `MMM yy`), so the split on space-plus-apostrophe
never finds its separator, `year` is `undefined`, every reconstructed `sortValue`
is `NaN` (`none`), the comparator never orders any pair, and the
buckets stay in first-encountered order `[Feb 24, Jan 24]` instead of
the chronologically ascending `[Jan 24, Feb 24]` that the claim (and
the evident intent of the `sortValue` computation) requires. -/
theorem C5_activity_order_bug :
    activityData [⟨"a", "n", "a", "e", "p", ["A"], "Feb 10, 2024"⟩,
                  ⟨"b", "n", "a", "e", "p", ["A"], "Jan 5, 2024"⟩]
        = [⟨"Feb 24", 1, none⟩, ⟨"Jan 24", 1, none⟩]
    ∧ claimActivityData [⟨"a", "n", "a", "e", "p", ["A"], "Feb 10, 2024"⟩,
                         ⟨"b", "n", "a", "e", "p", ["A"], "Jan 5, 2024"⟩]
        = [("Jan 24", 1), ("Feb 24", 1)]
    ∧ sortValueOf "Feb 24" = none ∧ sortValueOf "Jan 24" = none := by
  exact ⟨rfl, rfl, rfl, rfl⟩

/-- One parsed CSV data row as `handleFileChange` reads it.  Papaparse
returns string cell values for recognized headers; a missing column is
`undefined`.  Both `undefined` and `""` are falsy in the `||` chains,
so absence is modelled as `""`.  `fullName` stands for the source
column `row["Full Name"]`. -/
structure CsvRow where
  name : String
  upperName : String
  fullName : String
  avatar : String
  email : String
  upperEmail : String
  phone : String
  upperPhone : String
  tags : String
  deriving Repr, DecidableEq

/-- The faker-generated fallback values for one imported row (the
synthesized name or email etc. differ per row, so they are supplied as
data). -/
structure Synth where
  id : String
  name : String
  avatar : String
  email : String
  phone : String
  tags : List String
  deriving Repr, DecidableEq

/-- JavaScript `String.prototype.split` with a one-character separator. -/
def splitChar (sep : Char) : List Char → List (List Char)
  | [] => [[]]
  | c :: rest =>
    if c == sep then [] :: splitChar sep rest
    else
      match splitChar sep rest with
      | [] => [[c]]
      | g :: gs => (c :: g) :: gs

/-- JavaScript `String.prototype.trim`: strip whitespace at both ends. -/
def trimChars (l : List Char) : List Char :=
  ((l.dropWhile Char.isWhitespace).reverse.dropWhile Char.isWhitespace).reverse

/-- The cell transform `s.split(",").map(t => t.trim())` on the `tags` cell. -/
def splitTags (s : String) : List String :=
  (splitChar ',' s.toList).map (fun l => String.mk (trimChars l))

/-- The record built for one CSV row in `handleFileChange`. -/
def rowToCustomer (row : CsvRow) (synth : Synth) (importTime : String) : Customer :=
  { id := synth.id
    name := jsOr (jsOr (jsOr row.name row.upperName) row.fullName) synth.name
    avatar := jsOr row.avatar synth.avatar
    email := jsOr (jsOr row.email row.upperEmail) synth.email
    phone := jsOr (jsOr row.phone row.upperPhone) synth.phone
    tags := if row.tags ≠ "" then splitTags row.tags else synth.tags
    lastContacted := importTime }

inductive ImportOutcome where
  | success (count : Nat)
  | noValidData
  deriving Repr, DecidableEq

/-- The complete-callback of `handleFileChange`: map every parsed row
to a new record; when at least one exists prepend them all and report
the count, otherwise report the no-valid-data outcome and leave the
store untouched. -/
def importBatch (rows : List CsvRow) (fresh : Nat → Synth) (importTime : String)
    (data : List Customer) : List Customer × ImportOutcome :=
  let newCustomers := rows.enum.map (fun p => rowToCustomer p.2 (fresh p.1) importTime)
  if 0 < newCustomers.length then
    (newCustomers ++ data, .success newCustomers.length)
  else
    (data, .noValidData)

/-- C6: the import batch is all-or-nothing.  With at least one parsed
row the store receives exactly one new record per row, all prepended in
front of the old store in one step, every new record carries the import
time, and the reported outcome is the imported count; with zero rows
the store is completely unchanged and the distinct no-valid-data
outcome is reported. -/
theorem C6_import_all_or_nothing (rows : List CsvRow) (fresh : Nat → Synth) (t : String)
    (data : List Customer) :
    (rows ≠ [] →
       (importBatch rows fresh t data).2 = ImportOutcome.success rows.length
       ∧ (importBatch rows fresh t data).1
           = rows.enum.map (fun p => rowToCustomer p.2 (fresh p.1) t) ++ data
       ∧ (importBatch rows fresh t data).1.length = rows.length + data.length
       ∧ ∀ c ∈ rows.enum.map (fun p => rowToCustomer p.2 (fresh p.1) t),
           c.lastContacted = t)
    ∧ (rows = [] →
       (importBatch rows fresh t data).1 = data
       ∧ (importBatch rows fresh t data).2 = ImportOutcome.noValidData) := by
  constructor
  · intro hne
    have hlen : (rows.enum.map (fun p => rowToCustomer p.2 (fresh p.1) t)).length
        = rows.length := by
      simp
    have hpos : 0 < rows.length := List.length_pos.mpr hne
    refine ⟨?_, ?_, ?_, ?_⟩
    · simp only [importBatch, hlen]
      rw [if_pos hpos]
    · simp only [importBatch, hlen]
      rw [if_pos hpos]
    · simp only [importBatch, hlen]
      rw [if_pos hpos]
      simp [hlen]
    · intro c hc
      simp only [List.mem_map] at hc
      obtain ⟨p, _, hp⟩ := hc
      rw [← hp]
      rfl
  · intro he
    subst he
    exact ⟨rfl, rfl⟩

theorem C6_import_all_or_nothing_witness :
    (([(⟨"", "", "", "", "", "", "", "", ""⟩ : CsvRow)] : List CsvRow) ≠ []
     ∧ (importBatch [⟨"", "", "", "", "", "", "", "", ""⟩]
          (fun _ => ⟨"id0", "Syn Name", "av", "syn@example.com", "555", ["Lead"]⟩)
          "Mar 5, 2024" []).2 = ImportOutcome.success 1)
    ∧ ((importBatch []
          (fun _ => (⟨"id0", "Syn Name", "av", "syn@example.com", "555", ["Lead"]⟩ : Synth))
          "Mar 5, 2024" [⟨"c1", "N", "a", "e", "p", ["Lead"], "x"⟩]).1
        = [⟨"c1", "N", "a", "e", "p", ["Lead"], "x"⟩]
       ∧ (importBatch []
            (fun _ => (⟨"id0", "Syn Name", "av", "syn@example.com", "555", ["Lead"]⟩ : Synth))
            "Mar 5, 2024" [⟨"c1", "N", "a", "e", "p", ["Lead"], "x"⟩]).2
          = ImportOutcome.noValidData) :=
  ⟨⟨by simp,
    ((C6_import_all_or_nothing [⟨"", "", "", "", "", "", "", "", ""⟩]
        (fun _ => ⟨"id0", "Syn Name", "av", "syn@example.com", "555", ["Lead"]⟩)
        "Mar 5, 2024" []).1 (by simp)).1⟩,
   (C6_import_all_or_nothing []
        (fun _ => ⟨"id0", "Syn Name", "av", "syn@example.com", "555", ["Lead"]⟩)
        "Mar 5, 2024" [⟨"c1", "N", "a", "e", "p", ["Lead"], "x"⟩]).2 rfl⟩

/-- A JavaScript value as it can appear in a parsed preference blob.
`undef` is a missing property. -/
inductive Json where
  | undef
  | jnull
  | jbool (b : Bool)
  | jnum (n : Int)
  | jstr (s : String)
  | jarr (xs : List Json)
  | jobj (fields : List (String × Json))

mutual

/-- Structural equality of JavaScript values (`SameValueZero` restricted
to the JSON fragment). -/
def jsonBeq : Json → Json → Bool
  | .undef, .undef => true
  | .jnull, .jnull => true
  | .jbool a, .jbool b => a == b
  | .jnum a, .jnum b => a == b
  | .jstr a, .jstr b => a == b
  | .jarr xs, .jarr ys => jsonListBeq xs ys
  | .jobj xs, .jobj ys => jsonObjBeq xs ys
  | _, _ => false

def jsonListBeq : List Json → List Json → Bool
  | [], [] => true
  | x :: xs, y :: ys => jsonBeq x y && jsonListBeq xs ys
  | _, _ => false

def jsonObjBeq : List (String × Json) → List (String × Json) → Bool
  | [], [] => true
  | (k1, v1) :: xs, (k2, v2) :: ys => k1 == k2 && jsonBeq v1 v2 && jsonObjBeq xs ys
  | _, _ => false

end

/-- JavaScript truthiness of a parsed value. -/
def truthy : Json → Bool
  | .undef => false
  | .jnull => false
  | .jbool b => b
  | .jnum n => decide (n ≠ 0)
  | .jstr s => decide (s ≠ "")
  | .jarr _ => true
  | .jobj _ => true

/-- First-occurrence deduplication: the element order of a JavaScript
`Set` built from an iterable. -/
def dedupFirst : List Json → List Json
  | [] => []
  | x :: xs => x :: (dedupFirst xs).filter (fun y => !(jsonBeq y x))

/-- JavaScript `new Set(v)`: succeeds on iterables (arrays and strings), throws a
`TypeError` (`none`) on any other truthy value. -/
def jsNewSet : Json → Option (List Json)
  | .jarr xs => some (dedupFirst xs)
  | .jstr s => some (dedupFirst (s.toList.map (fun c => .jstr (String.mk [c]))))
  | _ => none

/-- JavaScript `Array.isArray`. -/
def isArr : Json → Bool
  | .jarr _ => true
  | _ => false

/-- The parsed preference blob: one property per preference field
(`undef` when the property is absent). -/
structure ParsedPrefs where
  rowsPerPage : Json
  activeRoleFilter : Json
  hiddenColumns : Json
  dateRange : Json
  visibleCharts : Json
  chartTheme : Json
  customColor : Json
  widgetOrder : Json
  widgetSizes : Json

/-- The preference state after loading.  Fields other than
`hiddenColumns` are stored exactly as parsed (the setters perform no
conversion); `hiddenColumns` holds the elements of the constructed
`Set`. -/
structure Prefs where
  rowsPerPage : Json
  activeRoleFilter : Json
  hiddenColumns : List Json
  dateRange : Json
  visibleCharts : Json
  chartTheme : Json
  customColor : Json
  widgetOrder : Json
  widgetSizes : Json

/-- The initial `useState` defaults of `CustomerTable.tsx`. -/
def defaultPrefs : Prefs :=
  { rowsPerPage := .jnum 10
    activeRoleFilter := .jstr "All"
    hiddenColumns := [.jstr "avatar"]
    dateRange := .jobj [("start", .jstr ""), ("end", .jstr "")]
    visibleCharts := .jobj [("stats", .jbool true), ("bar", .jbool true),
                            ("pie", .jbool true), ("line", .jbool true)]
    chartTheme := .jstr "indigo"
    customColor := .jstr "#4f46e5"
    widgetOrder := .jarr [.jstr "stats", .jstr "line", .jstr "bar", .jstr "pie"]
    widgetSizes := .jobj [("stats", .jstr "full"), ("line", .jstr "full"),
                          ("bar", .jstr "half"), ("pie", .jstr "half")] }

/-- The setters that run after the `hiddenColumns` line in the load
effect, in source order. -/
def loadRest (s : Prefs) (p : ParsedPrefs) : Prefs :=
  let s := if truthy p.dateRange then { s with dateRange := p.dateRange } else s
  let s := if truthy p.visibleCharts then { s with visibleCharts := p.visibleCharts } else s
  let s := if truthy p.chartTheme then { s with chartTheme := p.chartTheme } else s
  let s := if truthy p.customColor then { s with customColor := p.customColor } else s
  let s := if truthy p.widgetOrder && isArr p.widgetOrder then
      { s with widgetOrder := p.widgetOrder }
    else s
  let s := if truthy p.widgetSizes then { s with widgetSizes := p.widgetSizes } else s
  s

/-- The body of the load `useEffect` on a successfully parsed blob: the
guarded setters run in source order inside one `try` block, so when
`new Set(parsed.hiddenColumns)` throws, the setters already executed
keep their values and every later setter is skipped (the `catch` only
logs). -/
def applyPrefs (p : ParsedPrefs) : Prefs :=
  let s := defaultPrefs
  let s := if truthy p.rowsPerPage then { s with rowsPerPage := p.rowsPerPage } else s
  let s := if truthy p.activeRoleFilter then
      { s with activeRoleFilter := p.activeRoleFilter }
    else s
  if truthy p.hiddenColumns then
    match jsNewSet p.hiddenColumns with
    | none => s
    | some hc => loadRest { s with hiddenColumns := hc } p
  else loadRest s p

/-- The load effect: a missing key or a `JSON.parse` failure is
`none` and yields the defaults. -/
def loadPrefs : Option ParsedPrefs → Prefs
  | none => defaultPrefs
  | some p => applyPrefs p

/-- C7 counterexample: in the blob
`{rowsPerPage: 20, hiddenColumns: 5, chartTheme: "rose"}` the
`chartTheme` value is well formed, yet it is not loaded: the blob
parses, `rowsPerPage` is applied, then `new Set(5)` throws and the
`catch` skips every later setter, so the malformed `hiddenColumns`
does prevent another field of the same blob from loading. -/
theorem C7_counterexample :
    (loadPrefs (some ⟨.jnum 20, .undef, .jnum 5, .undef, .undef,
        .jstr "rose", .undef, .undef, .undef⟩)).chartTheme = .jstr "indigo"
    ∧ (loadPrefs (some ⟨.jnum 20, .undef, .jnum 5, .undef, .undef,
        .jstr "rose", .undef, .undef, .undef⟩)).rowsPerPage = .jnum 20
    ∧ truthy (.jstr "rose") = true
    ∧ defaultPrefs.chartTheme = .jstr "indigo" := by
  exact ⟨rfl, rfl, rfl, rfl⟩

theorem loadRest_rowsPerPage (s : Prefs) (p : ParsedPrefs) :
    (loadRest s p).rowsPerPage = s.rowsPerPage := by
  unfold loadRest
  simp [apply_ite Prefs.rowsPerPage]

theorem loadRest_activeRoleFilter (s : Prefs) (p : ParsedPrefs) :
    (loadRest s p).activeRoleFilter = s.activeRoleFilter := by
  unfold loadRest
  simp [apply_ite Prefs.activeRoleFilter]

theorem loadRest_hiddenColumns (s : Prefs) (p : ParsedPrefs) :
    (loadRest s p).hiddenColumns = s.hiddenColumns := by
  unfold loadRest
  simp [apply_ite Prefs.hiddenColumns]

theorem loadRest_dateRange (s : Prefs) (p : ParsedPrefs) :
    (loadRest s p).dateRange = if truthy p.dateRange then p.dateRange else s.dateRange := by
  unfold loadRest
  simp [apply_ite Prefs.dateRange]

theorem loadRest_visibleCharts (s : Prefs) (p : ParsedPrefs) :
    (loadRest s p).visibleCharts
      = if truthy p.visibleCharts then p.visibleCharts else s.visibleCharts := by
  unfold loadRest
  simp [apply_ite Prefs.visibleCharts]

theorem loadRest_chartTheme (s : Prefs) (p : ParsedPrefs) :
    (loadRest s p).chartTheme
      = if truthy p.chartTheme then p.chartTheme else s.chartTheme := by
  unfold loadRest
  simp [apply_ite Prefs.chartTheme]

theorem loadRest_customColor (s : Prefs) (p : ParsedPrefs) :
    (loadRest s p).customColor
      = if truthy p.customColor then p.customColor else s.customColor := by
  unfold loadRest
  simp [apply_ite Prefs.customColor]

theorem loadRest_widgetOrder (s : Prefs) (p : ParsedPrefs) :
    (loadRest s p).widgetOrder
      = if truthy p.widgetOrder && isArr p.widgetOrder then p.widgetOrder
        else s.widgetOrder := by
  unfold loadRest
  simp [apply_ite Prefs.widgetOrder]

theorem loadRest_widgetSizes (s : Prefs) (p : ParsedPrefs) :
    (loadRest s p).widgetSizes
      = if truthy p.widgetSizes then p.widgetSizes else s.widgetSizes := by
  unfold loadRest
  simp [apply_ite Prefs.widgetSizes]

/-- When the `hiddenColumns` conversion does not throw, the load effect
is `loadRest` applied to the state holding the first three fields. -/
theorem applyPrefs_eq (p : ParsedPrefs)
    (h : truthy p.hiddenColumns = false ∨ (jsNewSet p.hiddenColumns).isSome) :
    applyPrefs p
      = loadRest
          { defaultPrefs with
            rowsPerPage := if truthy p.rowsPerPage then p.rowsPerPage
              else defaultPrefs.rowsPerPage
            activeRoleFilter := if truthy p.activeRoleFilter then p.activeRoleFilter
              else defaultPrefs.activeRoleFilter
            hiddenColumns := if truthy p.hiddenColumns then
                (jsNewSet p.hiddenColumns).getD defaultPrefs.hiddenColumns
              else defaultPrefs.hiddenColumns } p := by
  unfold applyPrefs
  rcases h with hF | hS
  · by_cases h1 : truthy p.rowsPerPage <;> by_cases h2 : truthy p.activeRoleFilter <;>
      simp [hF, h1, h2]
  · obtain ⟨hc, hhc⟩ : ∃ y, jsNewSet p.hiddenColumns = some y :=
      Option.isSome_iff_exists.mp hS
    by_cases hT : truthy p.hiddenColumns <;>
      by_cases h1 : truthy p.rowsPerPage <;> by_cases h2 : truthy p.activeRoleFilter <;>
      simp [hT, h1, h2, hhc]

/-- C7 (amended): a missing key or parse failure yields the defaults,
and, provided the `hiddenColumns` value does not make `new Set` throw
(it is falsy or iterable), every preference field is recovered or
defaulted independently of the other fields: stored value when truthy
(and, for `widgetOrder`, an array; for `hiddenColumns`, converted to a
set), default otherwise.  When the conversion throws, fields before
`hiddenColumns` keep their stored values and all later fields keep
their defaults. -/
theorem C7_prefs_load_amended (p : ParsedPrefs)
    (h : truthy p.hiddenColumns = false ∨ (jsNewSet p.hiddenColumns).isSome) :
    loadPrefs none = defaultPrefs
    ∧ (loadPrefs (some p)).rowsPerPage
        = (if truthy p.rowsPerPage then p.rowsPerPage else defaultPrefs.rowsPerPage)
    ∧ (loadPrefs (some p)).activeRoleFilter
        = (if truthy p.activeRoleFilter then p.activeRoleFilter else defaultPrefs.activeRoleFilter)
    ∧ (loadPrefs (some p)).hiddenColumns
        = (if truthy p.hiddenColumns then (jsNewSet p.hiddenColumns).getD defaultPrefs.hiddenColumns
           else defaultPrefs.hiddenColumns)
    ∧ (loadPrefs (some p)).dateRange
        = (if truthy p.dateRange then p.dateRange else defaultPrefs.dateRange)
    ∧ (loadPrefs (some p)).visibleCharts
        = (if truthy p.visibleCharts then p.visibleCharts else defaultPrefs.visibleCharts)
    ∧ (loadPrefs (some p)).chartTheme
        = (if truthy p.chartTheme then p.chartTheme else defaultPrefs.chartTheme)
    ∧ (loadPrefs (some p)).customColor
        = (if truthy p.customColor then p.customColor else defaultPrefs.customColor)
    ∧ (loadPrefs (some p)).widgetOrder
        = (if truthy p.widgetOrder && isArr p.widgetOrder then p.widgetOrder
           else defaultPrefs.widgetOrder)
    ∧ (loadPrefs (some p)).widgetSizes
        = (if truthy p.widgetSizes then p.widgetSizes else defaultPrefs.widgetSizes) := by
  have hmain := applyPrefs_eq p h
  refine ⟨rfl, ?_, ?_, ?_, ?_, ?_, ?_, ?_, ?_, ?_⟩ <;>
    simp only [loadPrefs, hmain, loadRest_rowsPerPage, loadRest_activeRoleFilter,
      loadRest_hiddenColumns, loadRest_dateRange, loadRest_visibleCharts,
      loadRest_chartTheme, loadRest_customColor, loadRest_widgetOrder,
      loadRest_widgetSizes]

theorem C7_prefs_load_amended_witness :
    (truthy (ParsedPrefs.mk .undef (.jstr "VIP") (.jarr [.jstr "name"]) .undef .undef
        .undef .undef .undef .undef).hiddenColumns = false
     ∨ (jsNewSet (ParsedPrefs.mk .undef (.jstr "VIP") (.jarr [.jstr "name"]) .undef .undef
        .undef .undef .undef .undef).hiddenColumns).isSome)
    ∧ (loadPrefs (some (ParsedPrefs.mk .undef (.jstr "VIP") (.jarr [.jstr "name"]) .undef .undef
        .undef .undef .undef .undef))).activeRoleFilter = .jstr "VIP"
    ∧ (loadPrefs (some (ParsedPrefs.mk .undef (.jstr "VIP") (.jarr [.jstr "name"]) .undef .undef
        .undef .undef .undef .undef))).hiddenColumns = [.jstr "name"]
    ∧ (loadPrefs (some (ParsedPrefs.mk .undef (.jstr "VIP") (.jarr [.jstr "name"]) .undef .undef
        .undef .undef .undef .undef))).rowsPerPage = .jnum 10 := by
  have h := C7_prefs_load_amended
    (ParsedPrefs.mk .undef (.jstr "VIP") (.jarr [.jstr "name"]) .undef .undef
        .undef .undef .undef .undef)
    (Or.inr rfl)
  exact ⟨Or.inr rfl, h.2.2.1.trans rfl, h.2.2.2.1.trans rfl, h.2.1.trans rfl⟩

/-- The handler `handleReorderWidgets`: the immutability-helper
`$splice: [[dragIndex, 1], [hoverIndex, 0, prevOrder[dragIndex]]]`,
i.e. remove one element at `dragIndex`, then insert the removed element
at `hoverIndex` of the shortened list.  Out-of-bounds drag indices
never occur (drag indices come from rendered widgets); the list is
returned unchanged in that unreachable case. -/
def handleReorderWidgets (order : List String) (dragIndex hoverIndex : Nat) : List String :=
  match order[dragIndex]? with
  | some x => (order.eraseIdx dragIndex).insertIdx hoverIndex x
  | none => order

/-- C8: within bounds, the reorder removes the element at `fromIndex`
and reinserts it so that it lands at position `toIndex`, the other
elements keep their relative order (erasing the moved element from the
result recovers the erase-only list), the length is preserved, and the
spec example moves `stats` from index 0 to index 2. -/
theorem C8_reorder_widgets (order : List String) (i j : Nat)
    (hi : i < order.length) (hj : j < order.length) :
    handleReorderWidgets order i j
        = (order.eraseIdx i).insertIdx j (order.get ⟨i, hi⟩)
    ∧ (handleReorderWidgets order i j).eraseIdx j = order.eraseIdx i
    ∧ (handleReorderWidgets order i j)[j]? = some (order.get ⟨i, hi⟩)
    ∧ (handleReorderWidgets order i j).length = order.length
    ∧ handleReorderWidgets ["stats", "line", "bar", "pie"] 0 2
        = ["line", "bar", "stats", "pie"] := by
  have hsome : order[i]? = some (order.get ⟨i, hi⟩) := by
    simp [List.getElem?_eq_getElem hi]
  have hdef : handleReorderWidgets order i j
      = (order.eraseIdx i).insertIdx j (order.get ⟨i, hi⟩) := by
    unfold handleReorderWidgets
    rw [hsome]
  have hjle : j ≤ (order.eraseIdx i).length := by
    rw [List.length_eraseIdx_of_lt hi]
    omega
  refine ⟨hdef, ?_, ?_, ?_, by rfl⟩
  · rw [hdef]
    exact List.eraseIdx_insertIdx j (order.eraseIdx i)
  · rw [hdef]
    rw [List.getElem?_eq_getElem (by rw [List.length_insertIdx _ _ hjle, List.length_eraseIdx_of_lt hi]; omega)]
    congr 1
    exact List.getElem_insertIdx_self _ _ _ hjle
  · rw [hdef, List.length_insertIdx _ _ hjle, List.length_eraseIdx_of_lt hi]
    omega

theorem C8_reorder_widgets_witness :
    (0 < (["stats", "line", "bar", "pie"] : List String).length
     ∧ 2 < (["stats", "line", "bar", "pie"] : List String).length)
    ∧ handleReorderWidgets ["stats", "line", "bar", "pie"] 0 2
        = ["line", "bar", "stats", "pie"] :=
  ⟨⟨by decide, by decide⟩,
   (C8_reorder_widgets ["stats", "line", "bar", "pie"] 0 2 (by decide) (by decide)).2.2.2.2⟩

/-- The edit form data of `CustomerFormModal.tsx`. -/
structure CustomerFormData where
  firstName : String
  lastName : String
  email : String
  phone : String
  role : String
  deriving Repr, DecidableEq

/-- The editing branch of `handleModalSubmit`: map over the store,
replacing name, email, phone and tags (the tags
become the one-element list of the chosen role) and spreading the rest
of the record unchanged. -/
def handleModalSubmitEdit (data : List Customer) (editingId : String)
    (formData : CustomerFormData) : List Customer :=
  data.map (fun c =>
    if c.id = editingId then
      { c with
        name := formData.firstName ++ " " ++ formData.lastName
        email := formData.email
        phone := formData.phone
        tags := [formData.role] }
    else c)

/-- C9: after an edit submit the tags of the matching record are exactly the
one-element list of the chosen role (previous tags discarded), its id,
avatar and lastContacted are unchanged (and name, email, phone come from
the form), every non-matching record is untouched, and the store keeps
its length. -/
theorem C9_edit_submit_frame (data : List Customer) (editingId : String)
    (fd : CustomerFormData) (i : Nat) (c : Customer) (hc : data[i]? = some c) :
    (handleModalSubmitEdit data editingId fd).length = data.length
    ∧ (c.id = editingId →
        (handleModalSubmitEdit data editingId fd)[i]?
          = some { c with
                   name := fd.firstName ++ " " ++ fd.lastName
                   email := fd.email
                   phone := fd.phone
                   tags := [fd.role] })
    ∧ (c.id ≠ editingId →
        (handleModalSubmitEdit data editingId fd)[i]? = some c) := by
  have hmap : (handleModalSubmitEdit data editingId fd)[i]?
      = (data[i]?).map (fun c =>
          if c.id = editingId then
            { c with
              name := fd.firstName ++ " " ++ fd.lastName
              email := fd.email
              phone := fd.phone
              tags := [fd.role] }
          else c) := by
    unfold handleModalSubmitEdit
    exact List.getElem?_map _ _ _
  refine ⟨by simp [handleModalSubmitEdit], ?_, ?_⟩
  · intro hid
    rw [hmap, hc]
    simp [hid]
  · intro hid
    rw [hmap, hc]
    simp [hid]

theorem C9_edit_submit_frame_witness :
    ([Customer.mk "c1" "Old Name" "av1" "old@example.com" "111" ["Lead", "VIP"] "Jan 5, 2024",
      Customer.mk "c2" "Other" "av2" "oth@example.com" "222" ["Partner"] "Feb 1, 2024"][0]?
        = some (Customer.mk "c1" "Old Name" "av1" "old@example.com" "111" ["Lead", "VIP"] "Jan 5, 2024"))
    ∧ ((Customer.mk "c1" "Old Name" "av1" "old@example.com" "111" ["Lead", "VIP"] "Jan 5, 2024").id = "c1" →
      (handleModalSubmitEdit
        [Customer.mk "c1" "Old Name" "av1" "old@example.com" "111" ["Lead", "VIP"] "Jan 5, 2024",
         Customer.mk "c2" "Other" "av2" "oth@example.com" "222" ["Partner"] "Feb 1, 2024"]
        "c1" ⟨"New", "Name", "new@example.com", "333", "Customer"⟩)[0]?
        = some (Customer.mk "c1" "New Name" "av1" "new@example.com" "333" ["Customer"] "Jan 5, 2024")) :=
  ⟨rfl,
   fun h => ((C9_edit_submit_frame
      [Customer.mk "c1" "Old Name" "av1" "old@example.com" "111" ["Lead", "VIP"] "Jan 5, 2024",
       Customer.mk "c2" "Other" "av2" "oth@example.com" "222" ["Partner"] "Feb 1, 2024"]
      "c1" ⟨"New", "Name", "new@example.com", "333", "Customer"⟩ 0 _ rfl).2.1 h).trans rfl⟩

/-- The handler `handleToggleAll`: selection modelled as the finite set of checked
ids.  The guard compares only the set size with the filtered length. -/
def handleToggleAll (selectedIds : Finset String) (filtered : List Customer) :
    Finset String :=
  if selectedIds.card = filtered.length ∧ 0 < filtered.length then ∅
  else (filtered.map (fun c => c.id)).toFinset

/-- C10: with a non-empty filtered view the toggle looks only at the
sizes: equal sizes empty the selection (whatever ids it holds),
different sizes replace it with exactly the filtered ids. -/
theorem C10_toggle_all (sel : Finset String) (filtered : List Customer)
    (h : filtered ≠ []) :
    (sel.card = filtered.length → handleToggleAll sel filtered = ∅)
    ∧ (sel.card ≠ filtered.length →
        handleToggleAll sel filtered = (filtered.map (fun c => c.id)).toFinset) := by
  have hpos : 0 < filtered.length := List.length_pos.mpr h
  constructor
  · intro he
    unfold handleToggleAll
    rw [if_pos ⟨he, hpos⟩]
  · intro hne
    unfold handleToggleAll
    rw [if_neg (fun hcontra => hne hcontra.1)]

theorem C10_toggle_all_witness :
    (([Customer.mk "a" "n" "v" "e" "p" ["Lead"] "x"] : List Customer) ≠ []
     ∧ ({"zzz"} : Finset String).card = ([Customer.mk "a" "n" "v" "e" "p" ["Lead"] "x"] : List Customer).length
     ∧ handleToggleAll {"zzz"} [Customer.mk "a" "n" "v" "e" "p" ["Lead"] "x"] = ∅)
    ∧ (({} : Finset String).card ≠ ([Customer.mk "a" "n" "v" "e" "p" ["Lead"] "x"] : List Customer).length
       ∧ handleToggleAll {} [Customer.mk "a" "n" "v" "e" "p" ["Lead"] "x"]
          = (([Customer.mk "a" "n" "v" "e" "p" ["Lead"] "x"] : List Customer).map (fun c => c.id)).toFinset) :=
  ⟨⟨by decide, by decide,
    (C10_toggle_all {"zzz"} [Customer.mk "a" "n" "v" "e" "p" ["Lead"] "x"] (by decide)).1 (by decide)⟩,
   ⟨by decide,
    (C10_toggle_all {} [Customer.mk "a" "n" "v" "e" "p" ["Lead"] "x"] (by decide)).2 (by decide)⟩⟩

